import Mathlib

/-!
Verification of the Kubecent backend core: the TTL cache
(`backend/app/services/cache.py`), the OpenCost HTTP client retry logic
(`backend/app/clients/opencost.py`), and the cost normalization pipeline
(`backend/app/services/cost_service.py`).

Shallow embedding conventions:
* Python `datetime.now()` values are modelled as integer timestamps passed
  explicitly at each lock-acquisition point (`now` arguments); the source
  compares `(now - created_at).total_seconds() > ttl_seconds`.
* A cached Python value of type `Any` is modelled as `Option V`, where
  `Option.none` stands for the Python value `None`.  `get` returns
  `Option V` as well, so the conflation of "absent" and "stored None"
  at the `get` interface is represented faithfully.
* Exceptions raised by a fetch function are modelled with `Except`.
* `asyncio` cooperative concurrency is modelled (for `get_or_set`) as a
  small-step interleaving of tasks whose lock-guarded critical sections
  (`get`, `set`) are single atomic steps.
-/

namespace Kubecent

/-- `CacheEntry` from `cache.py`: `data : Any`, `created_at : datetime`,
`ttl_seconds : int`.  `data` is `Option V` with `none` = Python `None`. -/
structure CacheEntry (V : Type) where
  data : Option V
  created_at : Int
  ttl_seconds : Int
  deriving DecidableEq, Repr

/-- `CacheEntry.is_expired`: `(now - created_at).total_seconds() > ttl_seconds`,
a strict comparison. -/
def CacheEntry.is_expired (e : CacheEntry V) (now : Int) : Bool :=
  now - e.created_at > e.ttl_seconds

/-- The mutable state of a `CacheManager`: the key-to-entry map, the
`default_ttl`, and the hit/miss/expired counters of `_stats`. -/
structure CacheState (V : Type) where
  cache : String → Option (CacheEntry V)
  default_ttl : Int
  hits : Nat
  misses : Nat
  expired : Nat

namespace CacheManager

/-- `CacheManager.get`: miss on absent key (counts `misses`), eviction plus
`expired` count on an expired entry, otherwise returns `entry.data` and
counts a hit.  The whole body runs under the manager's lock, hence it is a
single atomic operation on the state. -/
def get (s : CacheState V) (now : Int) (key : String) :
    Option V × CacheState V :=
  match s.cache key with
  | none => (none, { s with misses := s.misses + 1 })
  | some e =>
    if e.is_expired now then
      (none,
        { s with
            cache := (fun k => if k = key then none else s.cache k)
            expired := s.expired + 1 })
    else
      (e.data, { s with hits := s.hits + 1 })

/-- The `ttl_to_use = ttl or self.default_ttl` computation of
`CacheManager.set`; Python treats both `None` and `0` as falsy. -/
def ttlToUse (s : CacheState V) (ttl : Option Int) : Int :=
  match ttl with
  | some t => if t = 0 then s.default_ttl else t
  | none => s.default_ttl

/-- `CacheManager.set`: unconditionally overwrites the entry with a fresh
`CacheEntry` whose `created_at` is the current time. -/
def set (s : CacheState V) (now : Int) (key : String) (value : Option V)
    (ttl : Option Int) : CacheState V :=
  { s with cache := (fun k =>
      if k = key then some ⟨value, now, ttlToUse s ttl⟩ else s.cache k) }

/-- `CacheManager.get_or_set`, sequential execution (one caller): look up,
return the cached value if it `is not None`, otherwise run the fetch and
store its result.  `now1` is the time of the `get`, `now2` the time of the
`set`.  The returned `Nat` counts how many times `fetch_func` was invoked.
A raising `fetch_func` is an `Except.error`; nothing is stored then. -/
def get_or_set (s : CacheState V) (now1 now2 : Int) (key : String)
    (fetch : Except E (Option V)) (ttl : Option Int) :
    Except E (Option V) × CacheState V × Nat :=
  let res := get s now1 key
  match res.1 with
  | some v => (Except.ok (some v), res.2, 0)
  | none =>
    match fetch with
    | Except.error e => (Except.error e, res.2, 1)
    | Except.ok value => (Except.ok value, set res.2 now2 key value ttl, 1)

end CacheManager

/-!
Interleaving model of N concurrent `get_or_set` callers for one key.

In the source, `get_or_set` awaits `get` (lock held during its body),
then — with no lock held — awaits `fetch_func()`, then awaits `set`
(lock held during its body).  A task is therefore in one of three phases:
about to run the lookup, fetch in flight, or finished with a result.
The scheduler picks which task steps next; each step is one lock-guarded
critical section (or the completion of the fetch followed by the atomic
`set`, whose stored value was already determined by the fetch).
-/

/-- Phase of one `get_or_set` caller. -/
inductive Phase (V : Type) where
  | start
  | fetching
  | finished (res : Option V)
  deriving DecidableEq, Repr

/-- `true` iff the task's `fetch_func` call is currently in flight. -/
def Phase.isFetching : Phase V → Bool
  | .fetching => true
  | _ => false

/-- Global configuration: the shared cache plus the phase of every task
(task `i` is `tasks[i]`). -/
structure ConcState (V : Type) where
  cache : CacheState V
  tasks : List (Phase V)

/-- One scheduler step: task `i` executes its next atomic section of
`get_or_set key fetch_i`.  `values i` is the (successful) result of task
`i`'s fetch.  A finished or out-of-range task leaves the state unchanged. -/
def concStep (key : String) (now : Int) (values : Nat → Option V)
    (ttl : Option Int) (c : ConcState V) (i : Nat) : ConcState V :=
  match c.tasks.get? i with
  | some Phase.start =>
    let res := CacheManager.get c.cache now key
    match res.1 with
    | some v => ⟨res.2, c.tasks.set i (Phase.finished (some v))⟩
    | none => ⟨res.2, c.tasks.set i Phase.fetching⟩
  | some Phase.fetching =>
    ⟨CacheManager.set c.cache now key (values i) ttl,
      c.tasks.set i (Phase.finished (values i))⟩
  | _ => c

/-- Run a whole schedule (list of task indices, in execution order). -/
def concRun (key : String) (now : Int) (values : Nat → Option V)
    (ttl : Option Int) (c : ConcState V) (sched : List Nat) : ConcState V :=
  sched.foldl (concStep key now values ttl) c

/-- Number of fetches currently in flight. -/
def inFlight (c : ConcState V) : Nat :=
  (c.tasks.filter Phase.isFetching).length

/-!
JSON values, as the Python objects produced by `response.json()`.

A JSON number becomes a Python `int` or `float`; the normalizer converts
it with `Decimal(str(x))`, and `str` of such a value prints the shortest
decimal representation, which for the literals exercised here is exactly
the decimal the JSON text denoted.  A `jnum` therefore carries that exact
decimal as a rational.
-/

inductive JsonVal where
  | jnull
  | jbool (b : Bool)
  | jnum (q : ℚ)
  | jstr (s : String)
  | jarr (items : List JsonVal)
  | jobj (fields : List (String × JsonVal))

/-- Python `dict.get`: first binding for the key, if any. -/
def lookupField (fields : List (String × JsonVal)) (key : String) :
    Option JsonVal :=
  match fields.find? (fun p => p.1 = key) with
  | some p => some p.2
  | none => none

/-- Python truthiness of a JSON-derived value (`if not x`). -/
def truthy : JsonVal → Bool
  | .jnull => false
  | .jbool b => b
  | .jnum q => q ≠ 0
  | .jstr s => s ≠ ""
  | .jarr [] => false
  | .jarr (_ :: _) => true
  | .jobj [] => false
  | .jobj (_ :: _) => true

/-!
OpenCost client (`backend/app/clients/opencost.py`).

Exception model: in `httpx`, `HTTPStatusError` (raised by
`raise_for_status` on a non-2xx response) and `RequestError` (connection
failures, and its subclass `TimeoutException`) are BOTH subclasses of
`httpx.HTTPError`; the builtin `TimeoutError` is separate.  The retry
decorator is `retry_if_exception_type((httpx.HTTPError, TimeoutError))`
with `stop_after_attempt(3)`, `wait_exponential(multiplier=1, max=10)`
and `reraise=True`.
-/

inductive HttpExc where
  | statusError (status : Nat)
  | requestError
  | timeoutError
  | otherError (msg : String)
  deriving DecidableEq, Repr

/-- Membership in the `httpx.HTTPError` class hierarchy. -/
def HttpExc.isHttpxHTTPError : HttpExc → Bool
  | .statusError _ => true
  | .requestError => true
  | _ => false

/-- `retry_if_exception_type((httpx.HTTPError, TimeoutError))`. -/
def HttpExc.isRetryable : HttpExc → Bool
  | .statusError _ => true
  | .requestError => true
  | .timeoutError => true
  | _ => false

/-- What one underlying `session.request` call did: produced a response,
or raised. -/
inductive RequestOutcome where
  | response (status : Nat) (body : JsonVal)
  | failure (e : HttpExc)

namespace OpenCostClient

def MAX_RETRIES : Nat := 3
def INITIAL_RETRY_DELAY : Nat := 1
def MAX_RETRY_DELAY : Nat := 10

/-- One attempt of the `_request` body: perform the call, then
`response.raise_for_status()`, which in `httpx` raises `HTTPStatusError`
for every non-2xx status. -/
def attemptOf : RequestOutcome → Except HttpExc (Nat × JsonVal)
  | .response status body =>
    if 200 ≤ status ∧ status < 300 then Except.ok (status, body)
    else Except.error (.statusError status)
  | .failure e => Except.error e

/-- `tenacity.wait_exponential(multiplier, max)` after failed attempt
number `attemptNumber`: `min max (multiplier * 2 ^ attemptNumber)`
(its `min` bound defaults to 0). -/
def waitExponential (multiplier maxWait attemptNumber : Nat) : Nat :=
  min maxWait (multiplier * 2 ^ attemptNumber)

/-- The tenacity retry loop: `outcomes k` is what the underlying call does
on attempt number `k` (1-based); `fuel` is the number of retries still
allowed by `stop_after_attempt`.  Returns the final result (`reraise=True`
reraises the last exception), the number of the last attempt made, and the
list of backoff sleeps performed between attempts. -/
def retryFrom (outcomes : Nat → RequestOutcome) :
    Nat → Nat → Except HttpExc (Nat × JsonVal) × Nat × List Nat
  | k, 0 => (attemptOf (outcomes k), k, [])
  | k, fuel + 1 =>
    match attemptOf (outcomes k) with
    | Except.ok v => (Except.ok v, k, [])
    | Except.error e =>
      if e.isRetryable then
        let rest := retryFrom outcomes (k + 1) fuel
        (rest.1, rest.2.1,
          waitExponential INITIAL_RETRY_DELAY MAX_RETRY_DELAY k :: rest.2.2)
      else (Except.error e, k, [])

/-- `OpenCostClient._request`: the retry-decorated request.  Attempts are
numbered from 1; at most `MAX_RETRIES` attempts are made in total. -/
def request (outcomes : Nat → RequestOutcome) :
    Except HttpExc (Nat × JsonVal) × Nat × List Nat :=
  retryFrom outcomes 1 (MAX_RETRIES - 1)

/-- `OpenCostClient.health_check`: calls `_request` on `/healthz` inside
`try`, returns `status == 200` on a response, `False` on any exception.
Returns the boolean together with the number of attempts `_request` made.
Totality of this function is the "never propagates" part of its contract. -/
def health_check (outcomes : Nat → RequestOutcome) : Bool × Nat :=
  let r := request outcomes
  match r.1 with
  | Except.ok v => (v.1 == 200, r.2.1)
  | Except.error _ => (false, r.2.1)

/-- The typed upstream failure: `OpenCostException(message, code)` raised
by `get_allocation` around any exception escaping `_request`. -/
inductive OpenCostFailure where
  | opencostException (cause : HttpExc) (code : String)

/-- `OpenCostClient.get_allocation`: issues the retried request and returns
`response.json()`; any exception is wrapped into an `OpenCostException`
with code `OPENCOST_ALLOCATION_ERROR`. -/
def get_allocation (outcomes : Nat → RequestOutcome) :
    Except OpenCostFailure JsonVal :=
  match (request outcomes).1 with
  | Except.ok v => Except.ok v.2
  | Except.error e =>
    Except.error (.opencostException e ("OPENCOST_ALLOCATION_ERROR"))

end OpenCostClient

/-!
Normalizer (`CostService._normalize_namespace_costs` and
`CostService._normalize_pod_costs` in `cost_service.py`).

Cost fields are read with `Decimal(str(item.get(field, 0)))`.  `Decimal`
arithmetic is exact decimal arithmetic, modelled by `ℚ`.  `Decimal(str(x))`
raises `InvalidOperation` when `str(x)` is not a numeric literal (e.g. for
a non-numeric string, `None`, a bool, a list or a dict); there is no
`try`/`except` around the loop, so such an exception aborts the whole
normalization.  The final `float(...)` conversions are presentation-only
and are not modelled (values stay exact rationals).
-/

/-- Exceptions the normalizer body can raise.  `invalidOperation` carries
the offending literal (abbreviated to a class name for containers). -/
inductive PyExc where
  | invalidOperation (s : String)
  | attributeError
  | typeError
  deriving DecidableEq, Repr

/-- Split a character list at the first dot, if any. -/
def splitDot : List Char → List Char × Option (List Char)
  | [] => ([], none)
  | c :: rest =>
    if c = '.' then ([], some rest)
    else
      let r := splitDot rest
      (c :: r.1, r.2)

/-- Numeric value of a digit list (most significant first). -/
def natOfDigits (cs : List Char) : Nat :=
  cs.foldl (fun acc c => acc * 10 + (c.toNat - 48)) 0

/-- The plain-decimal fragment of `Decimal`'s literal syntax: optional
sign, digits, optional fractional part.  Non-numeric strings yield `none`
(`InvalidOperation` in Python). -/
def parseDecimal (s : String) : Option ℚ :=
  let sgn : Bool × List Char :=
    match s.data with
    | '-' :: rest => (true, rest)
    | '+' :: rest => (false, rest)
    | cs => (false, cs)
  let ip := (splitDot sgn.2).1
  let fp := ((splitDot sgn.2).2).getD []
  if ip ++ fp = [] then none
  else if (ip ++ fp).all Char.isDigit then
    let q : ℚ := (natOfDigits (ip ++ fp) : ℚ) / ((10 : ℚ) ^ fp.length)
    some (if sgn.1 then -q else q)
  else none

/-- `Decimal(str(x))` on the Python value `x` decoded from JSON: exact for
`int`/`float` (shortest-repr round-trip), lenient for numeric strings,
raising for everything else. -/
def decimalOfPy : JsonVal → Except PyExc ℚ
  | .jnum q => Except.ok q
  | .jstr s =>
    match parseDecimal s with
    | some q => Except.ok q
    | none => Except.error (.invalidOperation s)
  | .jbool b => Except.error (.invalidOperation (if b then ("True") else ("False")))
  | .jnull => Except.error (.invalidOperation ("None"))
  | .jarr _ => Except.error (.invalidOperation ("list"))
  | .jobj _ => Except.error (.invalidOperation ("dict"))

/-- `Decimal(str(item.get(key, 0)))`: absent fields default to `0`. -/
def decimalField (fields : List (String × JsonVal)) (key : String) :
    Except PyExc ℚ :=
  decimalOfPy ((lookupField fields key).getD (.jnum 0))

/-- Attribute access `x.get(...)` requires a dict; anything else raises
`AttributeError`. -/
def asObj : JsonVal → Except PyExc (List (String × JsonVal))
  | .jobj fs => Except.ok fs
  | _ => Except.error PyExc.attributeError

/-- `for item in x`: lists iterate their items, dicts their keys, strings
their characters; numbers, booleans and `None` raise `TypeError`. -/
def iterItems : JsonVal → Except PyExc (List JsonVal)
  | .jarr l => Except.ok l
  | .jobj fs => Except.ok (fs.map (fun p => JsonVal.jstr p.1))
  | .jstr s => Except.ok (s.data.map (fun c => JsonVal.jstr (String.mk [c])))
  | _ => Except.error PyExc.typeError

namespace CostService

/-- One element of the `namespaces` list built by
`_normalize_namespace_costs` (cost fields kept exact; `name` and
`pod_count` are passed through as raw values, as in the source). -/
structure NsRecord where
  name : JsonVal
  total_cost : ℚ
  cpu_cost : ℚ
  memory_cost : ℚ
  storage_cost : ℚ
  idle_cost : ℚ
  pod_count : JsonVal

/-- Return value of `_normalize_namespace_costs`. -/
structure NsResult where
  namespaces : List NsRecord
  total : ℚ
  window : String
  item_count : Nat

/-- Loop body of `_normalize_namespace_costs`: skip items without a truthy
`properties.namespace`, otherwise extract the five cost fields (any of
which may raise), accumulate `total`, append the record. -/
def normalizeNsItem (acc : List NsRecord × ℚ) (item : JsonVal) :
    Except PyExc (List NsRecord × ℚ) := do
  let fs ← asObj item
  let props ← asObj ((lookupField fs ("properties")).getD (.jobj []))
  let nsv := (lookupField props ("namespace")).getD .jnull
  if truthy nsv = false then
    return acc
  else
    let cpu_cost ← decimalField fs ("cpuCost")
    let mem_cost ← decimalField fs ("memoryAllocatableCost")
    let storage_cost ← decimalField fs ("storageAllocatableCost")
    let total_cost ← decimalField fs ("totalCost")
    let idle_cost ← decimalField fs ("idleCost")
    return (acc.1 ++ [⟨nsv, total_cost, cpu_cost, mem_cost, storage_cost,
        idle_cost, (lookupField fs ("podCount")).getD (.jnum 0)⟩],
      acc.2 + total_cost)

/-- `CostService._normalize_namespace_costs`. -/
def normalize_namespace_costs (allocation : List (String × JsonVal))
    (window : String) : Except PyExc NsResult := do
  let items ← iterItems ((lookupField allocation ("data")).getD (.jarr []))
  let r ← items.foldlM normalizeNsItem ([], 0)
  return ⟨r.1, r.2, window, r.1.length⟩

/-- One element of the `pods` list built by `_normalize_pod_costs`. -/
structure PodRecord where
  namespaceVal : JsonVal
  name : JsonVal
  total_cost : ℚ
  cpu_cost : ℚ
  memory_cost : ℚ
  storage_cost : ℚ

/-- Return value of `_normalize_pod_costs`; `namespaceField` models the
`namespace` key added to the result only when the filter is truthy. -/
structure PodResult where
  pods : List PodRecord
  total : ℚ
  window : String
  item_count : Nat
  namespaceField : Option String

/-- Truthiness of the optional `namespace` filter argument. -/
def strTruthy : Option String → Bool
  | some s => s ≠ ""
  | none => false

/-- Python `item_ns != namespace` where `item_ns` came from JSON and
`namespace` is a `str`: values of different types are unequal. -/
def pyNeqStr (v : JsonVal) (s : String) : Bool :=
  match v with
  | .jstr t => t ≠ s
  | _ => true

/-- Loop body of `_normalize_pod_costs`: skip items without a truthy
`properties.pod`, apply the namespace filter, then extract cost fields. -/
def normalizePodItem (namespaceFilter : Option String)
    (acc : List PodRecord × ℚ) (item : JsonVal) :
    Except PyExc (List PodRecord × ℚ) := do
  let fs ← asObj item
  let props ← asObj ((lookupField fs ("properties")).getD (.jobj []))
  let item_ns := (lookupField props ("namespace")).getD .jnull
  let item_pod := (lookupField props ("pod")).getD .jnull
  if truthy item_pod = false then
    return acc
  else if strTruthy namespaceFilter
      && pyNeqStr item_ns (namespaceFilter.getD ("")) then
    return acc
  else
    let cpu_cost ← decimalField fs ("cpuCost")
    let mem_cost ← decimalField fs ("memoryAllocatableCost")
    let storage_cost ← decimalField fs ("storageAllocatableCost")
    let total_cost ← decimalField fs ("totalCost")
    return (acc.1 ++ [⟨item_ns, item_pod, total_cost, cpu_cost, mem_cost,
        storage_cost⟩], acc.2 + total_cost)

/-- `CostService._normalize_pod_costs`. -/
def normalize_pod_costs (allocation : List (String × JsonVal))
    (namespaceFilter : Option String) (window : String) :
    Except PyExc PodResult := do
  let items ← iterItems ((lookupField allocation ("data")).getD (.jarr []))
  let r ← items.foldlM (normalizePodItem namespaceFilter) ([], 0)
  return ⟨r.1, r.2, window, r.1.length,
    if strTruthy namespaceFilter then namespaceFilter else none⟩

end CostService

/-- A fresh cache: no entries, default TTL 300, zeroed counters. -/
def emptyState : CacheState Nat :=
  ⟨(fun _ => none), 300, 0, 0, 0⟩

/-- A cache holding one unexpired entry whose stored value is Python
`None`, under key `k`. -/
def noneEntryState : CacheState Nat :=
  ⟨(fun k => if k = ("k") then some ⟨none, 0, 300⟩ else none), 300, 0, 0, 0⟩

/-- A cache holding one unexpired entry with value `5` under key `k`. -/
def fiveEntryState : CacheState Nat :=
  ⟨(fun k => if k = ("k") then some ⟨some 5, 0, 300⟩ else none), 300, 0, 0, 0⟩

/-- Two concurrent `get_or_set` callers over the fresh cache. -/
def concInit : ConcState Nat :=
  ⟨emptyState, [Phase.start, Phase.start]⟩

/-- An upstream allocation record for namespace `ns` with the given extra
fields, also carrying a pod name so the pod normalizer does not skip it. -/
def mkRecord (ns pod : String) (rest : List (String × JsonVal)) : JsonVal :=
  JsonVal.jobj
    (("properties",
        JsonVal.jobj [("namespace", JsonVal.jstr ns), ("pod", JsonVal.jstr pod)])
      :: rest)

/-- Batch whose first record carries the non-numeric cost value `"abc"`,
followed by a well-formed record. -/
def c7alloc : List (String × JsonVal) :=
  [("data", JsonVal.jarr
    [mkRecord ("a") ("p1") [("cpuCost", JsonVal.jstr ("abc"))],
     mkRecord ("b") ("p2") [("totalCost", JsonVal.jnum 5)]])]

/-- A record with `cpuCost` given as the string `"10.5"`,
`memoryAllocatableCost` absent, and `totalCost` the number `20`. -/
def c9alloc : List (String × JsonVal) :=
  [("data", JsonVal.jarr
    [mkRecord ("default") ("p1")
      [("cpuCost", JsonVal.jstr ("10.5")), ("totalCost", JsonVal.jnum 20)]])]

/-! Theorems. -/

/-- After a lookup that reported absence (returned `None`), a repeated
`get` on the resulting state, at any time, still reports absence: the
entry was either missing, evicted, or holds the value `None`. -/
theorem get_none_of_get_none (s : CacheState V) (now1 now' : Int)
    (key : String) (h : (CacheManager.get s now1 key).1 = none) :
    (CacheManager.get (CacheManager.get s now1 key).2 now' key).1 = none := by
  unfold CacheManager.get at *
  cases hc : s.cache key with
  | none => simp [hc]
  | some e =>
    by_cases he : e.is_expired now1 = true
    · simp [hc, he]
    · simp [hc, he] at h ⊢
      simp [h]
      split <;> rfl

/-- C3: `is_expired` holds iff `now - created_at > ttl` (strictly);
`get` returns the entry's value and counts a hit iff the key is present
and unexpired; an expired entry is evicted immediately and counted as
`expired` (misses untouched); a never-set key counts a miss. -/
theorem C3_expiry_and_get (V : Type) (e : CacheEntry V) (now : Int)
    (s : CacheState V) (key : String) :
    (e.is_expired now = true ↔ now - e.created_at > e.ttl_seconds)
    ∧ (s.cache key = some e → e.is_expired now = false →
        CacheManager.get s now key = (e.data, { s with hits := s.hits + 1 }))
    ∧ (s.cache key = some e → e.is_expired now = true →
        CacheManager.get s now key =
          (none, { s with
              cache := (fun k => if k = key then none else s.cache k)
              expired := s.expired + 1 }))
    ∧ (s.cache key = none →
        CacheManager.get s now key = (none, { s with misses := s.misses + 1 })) := by
  refine ⟨?_, ?_, ?_, ?_⟩
  · simp [CacheEntry.is_expired]
  · intro h1 h2; simp [CacheManager.get, h1, h2]
  · intro h1 h2; simp [CacheManager.get, h1, h2]
  · intro h1; simp [CacheManager.get, h1]

/-- C3 witness: a hit on an unexpired entry returns its value and bumps
`hits`; a lookup on the fresh cache counts a miss. -/
theorem C3_witness :
    CacheManager.get fiveEntryState 100 ("k")
      = (some 5, { fiveEntryState with hits := 1 })
    ∧ CacheManager.get emptyState 100 ("k")
      = (none, { emptyState with misses := 1 }) :=
  ⟨(C3_expiry_and_get Nat ⟨some 5, 0, 300⟩ 100 fiveEntryState ("k")).2.1
      (by decide) (by decide),
   (C3_expiry_and_get Nat ⟨some 5, 0, 300⟩ 100 emptyState ("k")).2.2.2 rfl⟩

/-- C2 counterexample: on a missing key, a `get_or_set` whose fetch fails
still increments the `misses` counter (0 before, 1 after), so the
hit/miss/expired counters are not left unchanged by the failed attempt. -/
theorem C2_counterexample :
    (CacheManager.get_or_set (E := String) emptyState 0 0 ("k")
        (Except.error ("boom")) none).2.1.misses = 1
    ∧ emptyState.misses = 0 := by
  constructor
  · rfl
  · rfl

/-- C2 amended: when the lookup reports absence and the fetch fails, the
failure propagates unmodified, the post-state is exactly the post-state of
the lookup alone (so nothing is stored and the failed fetch itself updates
no counter beyond the miss/expired already recorded by that lookup), and a
subsequent `get` still reports absence. -/
theorem C2_failed_fetch (V E : Type) (s : CacheState V) (now1 now2 now3 : Int)
    (key : String) (err : E) (ttl : Option Int)
    (h : (CacheManager.get s now1 key).1 = none) :
    CacheManager.get_or_set s now1 now2 key (Except.error err) ttl
      = (Except.error err, (CacheManager.get s now1 key).2, 1)
    ∧ (CacheManager.get
        (CacheManager.get_or_set s now1 now2 key (Except.error err) ttl).2.1
        now3 key).1 = none := by
  have h1 : CacheManager.get_or_set s now1 now2 key (Except.error err) ttl
      = (Except.error err, (CacheManager.get s now1 key).2, 1) := by
    unfold CacheManager.get_or_set
    simp [h]
  refine ⟨h1, ?_⟩
  rw [h1]
  exact get_none_of_get_none s now1 now3 key h

/-- C2 witness: concrete failing fetch on the fresh cache. -/
theorem C2_witness :
    CacheManager.get_or_set (E := String) emptyState 0 0 ("k")
        (Except.error ("boom")) none
      = (Except.error ("boom"), (CacheManager.get emptyState 0 ("k")).2, 1)
    ∧ (CacheManager.get
        (CacheManager.get_or_set (E := String) emptyState 0 0 ("k")
          (Except.error ("boom")) none).2.1 50 ("k")).1 = none :=
  C2_failed_fetch Nat String emptyState 0 0 50 ("k") ("boom") none rfl

/-- C4 counterexample: key `k` is present with an unexpired entry, yet
`get_or_set` invokes the fetch (invocation count 1, not 0), because the
stored value is `None`. -/
theorem C4_counterexample :
    noneEntryState.cache ("k") = some ⟨none, 0, 300⟩
    ∧ CacheEntry.is_expired (V := Nat) ⟨none, 0, 300⟩ 0 = false
    ∧ (CacheManager.get_or_set (E := String) noneEntryState 0 0 ("k")
        (Except.ok (some 7)) none).2.2 = 1 := by
  refine ⟨by decide, by decide, rfl⟩

/-- C4 amended: on a present, unexpired entry whose stored value is not
`None`, `get_or_set` returns it without invoking the fetch; when the
lookup reports absence (missing, expired, or stored `None`), the fetch
runs exactly once, its result is stored via `set`, and is returned; `set`
stamps the entry with the current time and the given TTL (Python-falsy
TTL arguments fall back to the default). -/
theorem C4_get_or_set (V E : Type) (s : CacheState V) (now1 now2 : Int)
    (key : String) (fetch : Except E (Option V)) (ttl : Option Int) :
    (∀ e v, s.cache key = some e → e.is_expired now1 = false → e.data = some v →
      CacheManager.get_or_set s now1 now2 key fetch ttl
        = (Except.ok (some v), { s with hits := s.hits + 1 }, 0))
    ∧ (∀ value, (CacheManager.get s now1 key).1 = none → fetch = Except.ok value →
      CacheManager.get_or_set s now1 now2 key fetch ttl
        = (Except.ok value,
            CacheManager.set (CacheManager.get s now1 key).2 now2 key value ttl, 1))
    ∧ (∀ (s' : CacheState V) value,
        (CacheManager.set s' now2 key value ttl).cache key
          = some ⟨value, now2, CacheManager.ttlToUse s' ttl⟩) := by
  refine ⟨?_, ?_, ?_⟩
  · intro e v h1 h2 h3
    unfold CacheManager.get_or_set
    simp [CacheManager.get, h1, h2, h3]
  · intro value h1 h2
    unfold CacheManager.get_or_set
    simp [h1, h2]
  · intro s' value
    simp [CacheManager.set]

/-- C4 witness: a hit with a non-`None` value skips the fetch; a miss on
the fresh cache fetches once and stores the result. -/
theorem C4_witness :
    CacheManager.get_or_set (E := String) fiveEntryState 100 100 ("k")
        (Except.ok (some 7)) none
      = (Except.ok (some 5), { fiveEntryState with hits := 1 }, 0)
    ∧ CacheManager.get_or_set (E := String) emptyState 0 0 ("k")
        (Except.ok (some 7)) none
      = (Except.ok (some 7),
          CacheManager.set (CacheManager.get emptyState 0 ("k")).2 0 ("k")
            (some 7) none, 1) :=
  ⟨(C4_get_or_set Nat String fiveEntryState 100 100 ("k")
      (Except.ok (some 7)) none).1 ⟨some 5, 0, 300⟩ 5 (by decide) (by decide) rfl,
   (C4_get_or_set Nat String emptyState 0 0 ("k")
      (Except.ok (some 7)) none).2.1 (some 7) rfl rfl⟩

/-- C10: a stored `None` is never served — `get` on a present, unexpired
entry holding `None` returns `None` (indistinguishable from absence at
the interface), and `get_or_set` therefore invokes the fetch on every
such call. -/
theorem C10_none_never_served (V E : Type) (s : CacheState V)
    (now1 now2 : Int) (key : String) (e : CacheEntry V)
    (fetch : Except E (Option V)) (ttl : Option Int)
    (h1 : s.cache key = some e) (h2 : e.data = none)
    (h3 : e.is_expired now1 = false) :
    (CacheManager.get s now1 key).1 = none
    ∧ (CacheManager.get_or_set s now1 now2 key fetch ttl).2.2 = 1 := by
  have hg : (CacheManager.get s now1 key).1 = none := by
    simp [CacheManager.get, h1, h3, h2]
  refine ⟨hg, ?_⟩
  unfold CacheManager.get_or_set
  simp [hg]
  cases fetch <;> simp

/-- C10 witness: the concrete cache whose entry under `k` stores `None`. -/
theorem C10_witness :
    (CacheManager.get noneEntryState 0 ("k")).1 = none
    ∧ (CacheManager.get_or_set (E := String) noneEntryState 0 0 ("k")
        (Except.ok (some 7)) none).2.2 = 1 :=
  C10_none_never_served Nat String noneEntryState 0 0 ("k") ⟨none, 0, 300⟩
    (Except.ok (some 7)) none (by decide) rfl (by decide)

/-- What one `get` can do to the map at the queried key: leave it alone,
or (on expiry) evict it. -/
theorem get_cache_key (s : CacheState V) (now : Int) (key : String) :
    ((CacheManager.get s now key).2).cache key = s.cache key
    ∨ ((CacheManager.get s now key).2).cache key = none := by
  unfold CacheManager.get
  cases hc : s.cache key with
  | none => left; simp [hc]
  | some e =>
    by_cases he : e.is_expired now = true
    · right; simp [hc, he]
    · left; simp [hc, he]

/-- Invariant of the N-caller interleaving: the task list keeps its
length, and the entry under `key` is either absent or holds, whole, the
fetch result of one task that has completed its fetch-and-store. -/
def KeyInv (key : String) (N : Nat) (values : Nat → Option V)
    (c : ConcState V) : Prop :=
  c.tasks.length = N ∧
  (c.cache.cache key = none ∨
    ∃ i, i < N ∧ (c.cache.cache key).map CacheEntry.data = some (values i)
      ∧ c.tasks.get? i = some (Phase.finished (values i)))

/-- Each scheduler step preserves the invariant. -/
theorem keyInv_step (key : String) (now : Int) (values : Nat → Option V)
    (ttl : Option Int) (N : Nat) (c : ConcState V) (i : Nat)
    (h : KeyInv key N values c) :
    KeyInv key N values (concStep key now values ttl c i) := by
  obtain ⟨hlen, hdisj⟩ := h
  unfold concStep
  cases hti : c.tasks.get? i with
  | none => exact ⟨hlen, hdisj⟩
  | some ph =>
    have hi : i < N := by
      obtain ⟨hw, _⟩ := List.get?_eq_some.mp hti
      exact hlen ▸ hw
    cases ph with
    | finished r => exact ⟨hlen, hdisj⟩
    | fetching =>
      refine ⟨by simpa using hlen, Or.inr ⟨i, hi, ?_, ?_⟩⟩
      · simp [CacheManager.set]
      · simp only [ConcState.tasks, List.get?_eq_getElem?]
        exact List.getElem?_set_eq_of_lt (Phase.finished (values i)) (by omega)
    | start =>
      have hkeep : ∀ (ph2 : Phase V) (j : Nat),
          c.tasks.get? j = some (Phase.finished (values j)) →
          (c.tasks.set i ph2).get? j = some (Phase.finished (values j)) := by
        intro ph2 j htj
        have hne : i ≠ j := by
          intro hx
          rw [← hx, hti] at htj
          exact Phase.noConfusion (Option.some.inj htj)
        simp only [List.get?_eq_getElem?] at htj ⊢
        rw [List.getElem?_set_ne hne]
        exact htj
      cases hg : (CacheManager.get c.cache now key).1 with
      | some v =>
        simp only [hg]
        refine ⟨by simpa using hlen, ?_⟩
        rcases get_cache_key c.cache now key with hck | hck
        · rcases hdisj with hnone | ⟨j, hj, hdata, htj⟩
          · exact Or.inl (by simp [hck, hnone])
          · exact Or.inr ⟨j, hj, by simp [hck, hdata],
              hkeep (Phase.finished (some v)) j htj⟩
        · exact Or.inl (by simp [hck])
      | none =>
        simp only [hg]
        refine ⟨by simpa using hlen, ?_⟩
        rcases get_cache_key c.cache now key with hck | hck
        · rcases hdisj with hnone | ⟨j, hj, hdata, htj⟩
          · exact Or.inl (by simp [hck, hnone])
          · exact Or.inr ⟨j, hj, by simp [hck, hdata],
              hkeep Phase.fetching j htj⟩
        · exact Or.inl (by simp [hck])

/-- The invariant holds after any whole schedule. -/
theorem keyInv_run (key : String) (now : Int) (values : Nat → Option V)
    (ttl : Option Int) (N : Nat) (sched : List Nat) (c : ConcState V)
    (h : KeyInv key N values c) :
    KeyInv key N values (concRun key now values ttl c sched) := by
  induction sched generalizing c with
  | nil => exact h
  | cons a tl ih => exact ih _ (keyInv_step key now values ttl N c a h)

/-- C1 counterexample: two callers of `get_or_set` for the same missing
key, scheduled lookup-lookup: both find the key absent and both start
their fetch, so two in-flight fetches execute for one key at the same
time (and the fetch function is triggered twice, not once). -/
theorem C1_counterexample :
    inFlight (concRun ("k") 0 (fun i => some i) none concInit [0, 1]) = 2 := by
  decide

/-- C1 amended: redundant fetches are possible (no single-flight
coalescing), but each completed fetch stores its whole value atomically
under the lock, so whenever the key is cached after any schedule of N
callers starting from a state where it is missing, the cached value is
the complete result of one of the N fetches — never a mix — and that
caller has finished with exactly that value. -/
theorem C1_value_from_one_fetch (V : Type) (N : Nat)
    (values : Nat → Option V) (key : String) (now : Int) (ttl : Option Int)
    (sched : List Nat) (c0 : ConcState V)
    (h0 : c0.cache.cache key = none)
    (ht : c0.tasks = List.replicate N Phase.start) :
    (concRun key now values ttl c0 sched).cache.cache key = none
    ∨ ∃ i, i < N
        ∧ ((concRun key now values ttl c0 sched).cache.cache key).map
            CacheEntry.data = some (values i)
        ∧ (concRun key now values ttl c0 sched).tasks.get? i
            = some (Phase.finished (values i)) := by
  have hinv : KeyInv key N values c0 := by
    refine ⟨by rw [ht]; exact List.length_replicate N Phase.start, Or.inl h0⟩
  exact (keyInv_run key now values ttl N sched c0 hinv).2

/-- C1 witness: the two-caller system run to completion; the final cached
value under `k` is the whole result of one of the two fetches. -/
theorem C1_witness :
    (concRun ("k") 0 (fun i => some i) none concInit [0, 1, 0, 1]).cache.cache
        ("k") = none
    ∨ ∃ i, i < 2
        ∧ ((concRun ("k") 0 (fun i => some i) none concInit
              [0, 1, 0, 1]).cache.cache ("k")).map CacheEntry.data
            = some (some i)
        ∧ (concRun ("k") 0 (fun i => some i) none concInit
              [0, 1, 0, 1]).tasks.get? i = some (Phase.finished (some i)) :=
  C1_value_from_one_fetch Nat 2 (fun i => some i) ("k") 0 none [0, 1, 0, 1]
    concInit rfl rfl

/-- One unfolding step of the retry loop. -/
theorem retryFrom_succ (outcomes : Nat → RequestOutcome) (k fuel : Nat) :
    OpenCostClient.retryFrom outcomes k (fuel + 1)
      = match OpenCostClient.attemptOf (outcomes k) with
        | Except.ok v => (Except.ok v, k, [])
        | Except.error e =>
          if e.isRetryable then
            ((OpenCostClient.retryFrom outcomes (k + 1) fuel).1,
              (OpenCostClient.retryFrom outcomes (k + 1) fuel).2.1,
              OpenCostClient.waitExponential OpenCostClient.INITIAL_RETRY_DELAY
                  OpenCostClient.MAX_RETRY_DELAY k
                :: (OpenCostClient.retryFrom outcomes (k + 1) fuel).2.2)
          else (Except.error e, k, []) := rfl

/-- The retry loop makes between 1 and `fuel + 1` attempts, numbered from
`k`. -/
theorem retryFrom_attempt_ge (outcomes : Nat → RequestOutcome) :
    ∀ (fuel k : Nat),
      k ≤ (OpenCostClient.retryFrom outcomes k fuel).2.1
      ∧ (OpenCostClient.retryFrom outcomes k fuel).2.1 ≤ k + fuel := by
  intro fuel
  induction fuel with
  | zero => intro k; simp [OpenCostClient.retryFrom]
  | succ n ih =>
    intro k
    rw [retryFrom_succ]
    cases hA : OpenCostClient.attemptOf (outcomes k) with
    | ok v => simp
    | error e =>
      by_cases hr : e.isRetryable
      · have := ih (k + 1)
        simp only [hr, if_true]
        constructor
        · omega
        · omega
      · simp [hr]

/-- The backoff sleeps performed are exactly `wait_exponential(1, 10)` at
the attempt numbers that failed and were retried. -/
theorem retryFrom_waits (outcomes : Nat → RequestOutcome) :
    ∀ (fuel k : Nat),
      (OpenCostClient.retryFrom outcomes k fuel).2.2
        = (List.range ((OpenCostClient.retryFrom outcomes k fuel).2.1 - k)).map
            (fun j => OpenCostClient.waitExponential
              OpenCostClient.INITIAL_RETRY_DELAY OpenCostClient.MAX_RETRY_DELAY
              (k + j)) := by
  intro fuel
  induction fuel with
  | zero => intro k; simp [OpenCostClient.retryFrom]
  | succ n ih =>
    intro k
    rw [retryFrom_succ]
    cases hA : OpenCostClient.attemptOf (outcomes k) with
    | ok v => simp
    | error e =>
      by_cases hr : e.isRetryable
      · simp only [hr, if_true]
        have hge := (retryFrom_attempt_ge outcomes n (k + 1)).1
        have hmk : (OpenCostClient.retryFrom outcomes (k + 1) n).2.1 - k
            = ((OpenCostClient.retryFrom outcomes (k + 1) n).2.1 - (k + 1)) + 1 := by
          omega
        rw [ih (k + 1), hmk, List.range_succ_eq_map]
        simp only [List.map_cons, List.map_map]
        congr 1
        apply List.map_congr_left
        intro a ha
        have hka : k + 1 + a = k + (a + 1) := by omega
        simp [Function.comp, hka]
      · simp [hr]

/-- C5 counterexample: an upstream that answers HTTP 404 on every attempt.
`raise_for_status` turns each response into an `HTTPStatusError`, which is
a subclass of the retried `httpx.HTTPError`, so the 4xx-equivalent
application error IS retried: 3 attempts are made (the claim requires 1),
with backoff sleeps of 2s then 4s (the claim requires a first delay of
1s). -/
theorem C5_counterexample :
    OpenCostClient.request (fun _ => RequestOutcome.response 404 JsonVal.jnull)
      = (Except.error (HttpExc.statusError 404), 3, [2, 4]) := rfl

/-- C5 amended: the client makes at most 3 attempts in total; exceptions
outside `httpx.HTTPError`/`TimeoutError` are never retried; but HTTP
status errors (the 4xx-equivalent application errors) are inside
`httpx.HTTPError` and are retried like transient failures; the sleeps
between attempts follow `wait_exponential(multiplier=1, max=10)`, i.e.
`min 10 (2 ^ n)` after the n-th failed attempt — 2s, then 4s. -/
theorem C5_retry_policy (outcomes : Nat → RequestOutcome) :
    (1 ≤ (OpenCostClient.request outcomes).2.1
      ∧ (OpenCostClient.request outcomes).2.1 ≤ OpenCostClient.MAX_RETRIES)
    ∧ (OpenCostClient.request outcomes).2.2
        = (List.range ((OpenCostClient.request outcomes).2.1 - 1)).map
            (fun j => OpenCostClient.waitExponential
              OpenCostClient.INITIAL_RETRY_DELAY OpenCostClient.MAX_RETRY_DELAY
              (1 + j))
    ∧ (∀ msg, outcomes 1 = RequestOutcome.failure (HttpExc.otherError msg) →
        OpenCostClient.request outcomes
          = (Except.error (HttpExc.otherError msg), 1, []))
    ∧ (∀ status body, outcomes 1 = RequestOutcome.response status body →
        400 ≤ status → 2 ≤ (OpenCostClient.request outcomes).2.1) := by
  have hreq : OpenCostClient.request outcomes
      = OpenCostClient.retryFrom outcomes 1 2 := rfl
  refine ⟨?_, ?_, ?_, ?_⟩
  · have hb := retryFrom_attempt_ge outcomes 2 1
    have hm : OpenCostClient.MAX_RETRIES = 3 := rfl
    rw [hreq, hm]
    exact ⟨hb.1, by have := hb.2; omega⟩
  · rw [hreq]
    exact retryFrom_waits outcomes 2 1
  · intro msg hmsg
    rw [hreq, retryFrom_succ]
    simp [OpenCostClient.attemptOf, hmsg, HttpExc.isRetryable]
  · intro status body hs h4
    have hA : OpenCostClient.attemptOf (outcomes 1)
        = Except.error (HttpExc.statusError status) := by
      simp only [OpenCostClient.attemptOf, hs]
      rw [if_neg]
      omega
    rw [hreq, retryFrom_succ, hA]
    simp only [HttpExc.isRetryable, if_true]
    exact (retryFrom_attempt_ge outcomes 1 2).1

/-- C5 witness: a non-`HTTPError` exception is not retried (1 attempt);
a 500 response is retried (at least 2 attempts). -/
theorem C5_witness :
    OpenCostClient.request (fun _ => RequestOutcome.failure
        (HttpExc.otherError ("x")))
      = (Except.error (HttpExc.otherError ("x")), 1, [])
    ∧ 2 ≤ (OpenCostClient.request
        (fun _ => RequestOutcome.response 500 JsonVal.jnull)).2.1 :=
  ⟨(C5_retry_policy (fun _ => RequestOutcome.failure
      (HttpExc.otherError ("x")))).2.2.1 ("x") rfl,
   (C5_retry_policy (fun _ => RequestOutcome.response 500
      JsonVal.jnull)).2.2.2 500 JsonVal.jnull rfl (by omega)⟩

/-- C8 counterexample: with the upstream unreachable on every attempt,
`health_check` returns `false` but the probe is not single: the retrying
`_request` helper makes 3 attempts, not exactly one. -/
theorem C8_counterexample :
    OpenCostClient.health_check
        (fun _ => RequestOutcome.failure HttpExc.requestError)
      = (false, 3) := rfl

/-- C8 amended: `health_check` returns a boolean and, being a total
function of the outcomes, never propagates an exception; any failure
yields `false` (it reports `true` exactly when the request chain ends in
a 200 response); but it is not a single unretried probe: it goes through
the retrying `_request`, making up to 3 attempts. -/
theorem C8_health_check (outcomes : Nat → RequestOutcome) :
    (OpenCostClient.health_check outcomes).2 ≤ OpenCostClient.MAX_RETRIES
    ∧ ((OpenCostClient.health_check outcomes).1 = true
        ↔ ∃ body, (OpenCostClient.request outcomes).1
            = Except.ok (200, body)) := by
  have hb : (OpenCostClient.request outcomes).2.1 ≤ OpenCostClient.MAX_RETRIES := by
    have h2 := (retryFrom_attempt_ge outcomes 2 1).2
    have hreq : OpenCostClient.request outcomes
        = OpenCostClient.retryFrom outcomes 1 2 := rfl
    have hm : OpenCostClient.MAX_RETRIES = 3 := rfl
    rw [hreq, hm]
    omega
  constructor
  · unfold OpenCostClient.health_check
    cases hr : (OpenCostClient.request outcomes).1 with
    | ok v => simpa [hr] using hb
    | error e => simpa [hr] using hb
  · unfold OpenCostClient.health_check
    cases hr : (OpenCostClient.request outcomes).1 with
    | ok v =>
      obtain ⟨st, bd⟩ := v
      simp [hr, Prod.ext_iff]
    | error e =>
      simp [hr]

/-- C8 witness: the amended contract instantiated at an upstream that
answers 200 on the first attempt. -/
theorem C8_witness :
    (OpenCostClient.health_check
        (fun _ => RequestOutcome.response 200 JsonVal.jnull)).2
      ≤ OpenCostClient.MAX_RETRIES
    ∧ ((OpenCostClient.health_check
          (fun _ => RequestOutcome.response 200 JsonVal.jnull)).1 = true
        ↔ ∃ body, (OpenCostClient.request
            (fun _ => RequestOutcome.response 200 JsonVal.jnull)).1
          = Except.ok (200, body)) :=
  C8_health_check (fun _ => RequestOutcome.response 200 JsonVal.jnull)

/-- C7: a record whose `cpuCost` is the non-numeric string `"abc"` makes
`Decimal(str(...))` raise `InvalidOperation`; there is no handler in the
normalizers, so the whole batch is aborted — the well-formed second
record is never normalized — in both the namespace and the pod
normalizer.  (The claim requires the offending record to be skipped.) -/
theorem C7_malformed_record_aborts_batch :
    CostService.normalize_namespace_costs c7alloc ("7d")
      = Except.error (PyExc.invalidOperation ("abc"))
    ∧ CostService.normalize_pod_costs c7alloc none ("7d")
      = Except.error (PyExc.invalidOperation ("abc")) :=
  ⟨rfl, rfl⟩

/-- C9: cost-field extraction defaults absent fields to 0 and parses
leniently, accepting numbers and numeric strings alike; on the record
with `cpuCost = "10.5"`, `memoryAllocatableCost` absent and
`totalCost = 20`, normalization yields `cpu_cost = 10.5`,
`memory_cost = 0`, `total_cost = 20` rather than an error. -/
theorem C9_lenient_extraction :
    (∀ fields key, lookupField fields key = none →
        decimalField fields key = Except.ok 0)
    ∧ (∀ fields key q, lookupField fields key = some (JsonVal.jnum q) →
        decimalField fields key = Except.ok q)
    ∧ (∀ fields key s q, lookupField fields key = some (JsonVal.jstr s) →
        parseDecimal s = some q → decimalField fields key = Except.ok q)
    ∧ (CostService.normalize_namespace_costs c9alloc ("7d")).map
        (fun r => r.namespaces.map
          (fun n => (n.cpu_cost, n.memory_cost, n.total_cost)))
      = Except.ok [((21 : ℚ) / 2, 0, 20)] := by
  refine ⟨?_, ?_, ?_, ?_⟩
  · intro fields key h
    simp [decimalField, h, decimalOfPy]
  · intro fields key q h
    simp [decimalField, h, decimalOfPy]
  · intro fields key s q h hp
    simp [decimalField, h, decimalOfPy, hp]
  · simp [CostService.normalize_namespace_costs, CostService.normalizeNsItem,
      iterItems, lookupField, asObj, truthy, decimalField, decimalOfPy,
      c9alloc, mkRecord, List.foldlM, Except.map, List.find?, Bind.bind,
      Except.bind, Pure.pure, Except.pure, parseDecimal, splitDot,
      natOfDigits]
    norm_num

/-- C9 witness: concrete instances of the three extraction rules. -/
theorem C9_witness :
    decimalField [] ("cpuCost") = Except.ok 0
    ∧ decimalField [("totalCost", JsonVal.jnum 20)] ("totalCost")
        = Except.ok 20
    ∧ decimalField [("cpuCost", JsonVal.jstr ("10.5"))] ("cpuCost")
        = Except.ok ((21 : ℚ) / 2) :=
  ⟨C9_lenient_extraction.1 [] ("cpuCost") rfl,
   C9_lenient_extraction.2.1 [("totalCost", JsonVal.jnum 20)] ("totalCost")
      20 rfl,
   C9_lenient_extraction.2.2.1 [("cpuCost", JsonVal.jstr ("10.5"))]
      ("cpuCost") ("10.5") ((21 : ℚ) / 2) rfl
      (by simp [parseDecimal, splitDot, natOfDigits]; norm_num)⟩

end Kubecent
